import Mathlib

/-!
Shallow embedding of the decentralised graph-colouring agents
(agent_remove_negotiate.py, agent_remove_random.py, async_agent.py).

Modelling conventions:
* A committed or intended colour is an `Option Colour` (`none` = Python `None`).
* The shared `colour_score` dictionary is a total function `Colour -> Int`
  (it is initialised for every colour of the palette; `dict.get(c, 0)` on an
  absent key, in particular on `None`, is modelled by `getScore`).
* A Python exception (IndexError of `random.choice([])`, ValueError of
  `max([])`, KeyError of indexing a dict with `None`) is modelled by `none`
  in an `Option` result.
* `random.choice(xs)` followed by the strict arg-max loop of
  `colour_negotiation` always returns the first element of maximal score,
  because the first iteration already beats `-inf`; similarly Python `max`
  with a key and stable `sorted(..., reverse=True)[0]` return the first
  maximal element.  All three are modelled by `argmaxFirst`.
* A Python set of small ints (the palette never holds anything else and is
  only ever shrunk from `range(14)`, so it stays ascending) iterates in
  ascending order; set differences are modelled by filtering the ascending
  palette list, which preserves that order.
-/

namespace GraphColouring

abbrev Colour := Nat

abbrev ScoreBoard := Colour → Int

/-- `dict.get(c, 0)` of the score dictionary, applied to a possibly unset
colour; `None` is never a key, so it yields the default 0. -/
def getScore (sb : ScoreBoard) : Option Colour → Int
  | none => 0
  | some c => sb c

/-- First element of maximal value of `f` in `x :: xs`: the common semantics
of the strict-improvement loop of `colour_negotiation`, of Python `max` with
a key, and of `sorted(..., key, reverse=True)[0]`. -/
def argmaxFirst (f : α → Int) (x : α) (xs : List α) : α :=
  xs.foldl (fun best y => if f y > f best then y else best) x

theorem argmaxFirst_mem (f : α → Int) (x : α) (xs : List α) :
    argmaxFirst f x xs ∈ x :: xs := by
  induction xs generalizing x with
  | nil => simp [argmaxFirst]
  | cons y ys ih =>
    have h := ih (if f y > f x then y else x)
    rw [List.mem_cons] at h
    have hg : argmaxFirst f x (y :: ys) =
        argmaxFirst f (if f y > f x then y else x) ys := rfl
    rw [hg]
    rcases h with h | h
    · by_cases hc : f y > f x
      · rw [h, if_pos hc]
        exact List.mem_cons_of_mem _ (List.mem_cons_self _ _)
      · rw [h, if_neg hc]
        exact List.mem_cons_self _ _
    · exact List.mem_cons_of_mem _ (List.mem_cons_of_mem _ h)

/-- `count_conflicts` (identical in agent_remove_negotiate.py lines 123-134
and agent_remove_random.py lines 105-128, async_agent.py lines 183-191):
for every node and every neighbour, increment when the two colours are
equal (Python `==`, under which `None == None` holds), then halve. -/
def count_conflicts (adj : Nat → List Nat) (col : Nat → Option Colour)
    (nodes : List Nat) : Nat :=
  (nodes.foldl
    (fun acc n => acc + ((adj n).filter (fun m => col n = col m)).length) 0) / 2

namespace Negotiate

/-- Global state of the sequential negotiating variant
(agent_remove_negotiate.py): adjacency of the graph, the committed colour of
each node's agent, the single score dictionary shared by every agent, and the
shared `colours_range` palette. -/
structure Sim where
  adj : Nat → List Nat
  colour : Nat → Option Colour
  scores : ScoreBoard
  palette : List Colour

/-- `len(list(graph.neighbors(i)))`. -/
def degree (s : Sim) (i : Nat) : Nat := (s.adj i).length

/-- `perceive_environment` (lines 31-36): the committed colours of the
neighbours, in adjacency order. -/
def perceive_environment (s : Sim) (i : Nat) : List (Option Colour) :=
  (s.adj i).map fun n => s.colour n

/-- `assess_colour` (lines 77-92).  `my_score` starts from my own score
dictionary entry and is both the running result and the value compared
against each neighbour's score (the dictionary is shared, so the neighbour's
entry for the colour equals my own entry). -/
def assess_colour (s : Sim) (i : Nat) (oc : Option Colour) : Int :=
  (s.adj i).foldl
    (fun my n =>
      if degree s i < degree s n ∨
          (degree s i = degree s n ∧ my < getScore s.scores oc) then my - 1
      else if degree s i = degree s n ∧ my = getScore s.scores oc ∧ i < n then
        my - 1
      else my + 1)
    (getScore s.scores oc)

/-- `colour_negotiation` (lines 59-67): first colour of maximal assessed
score; `random.choice([])` on an empty choice list raises (`none`). -/
def colour_negotiation (s : Sim) (i : Nat) :
    List (Option Colour) → Option (Option Colour)
  | [] => none
  | x :: xs => some (argmaxFirst (assess_colour s i) x xs)

/-- `update_colour_score` (lines 69-75), applied after the new colour `c` has
been committed: penalise the shared entry for `c` by 10 when some neighbour
holds `c`, otherwise reward it by 10. -/
def update_colour_score (s : Sim) (i : Nat) (c : Colour) : Sim :=
  if (s.adj i).any (fun n => s.colour n = some c) then
    { s with scores := fun c2 => if c2 = c then s.scores c - 10 else s.scores c2 }
  else
    { s with scores := fun c2 => if c2 = c then s.scores c + 10 else s.scores c2 }

/-- `decide_new_colour` (lines 38-57).  The `if self.intended_colour is None
or True` test of line 50 is always true, so the committed branch always runs
and the `return False` of line 55 is dead code.  If the chosen intent were
`None`, `update_colour_score` would index the dictionary with `None` and
raise, hence the `none` result in that (unreachable) case. -/
def decide_new_colour (s : Sim) (i : Nat) (nbrCols : List (Option Colour)) :
    Option (Bool × Sim) :=
  let available :=
    s.palette.filter (fun c => some c ∉ nbrCols ∧ some c ≠ s.colour i)
  if available = [] then
    match colour_negotiation s i nbrCols with
    | none => none
    | some oc =>
      some (true, { s with colour := fun j => if j = i then oc else s.colour j })
  else if s.colour i ∈ nbrCols ∨ s.colour i = none then
    match colour_negotiation s i (available.map some) with
    | some (some c) =>
      let s1 : Sim :=
        { s with colour := fun j => if j = i then some c else s.colour j }
      some (true, update_colour_score s1 i c)
    | _ => none
  else
    some (true, s)

/-- Agent construction of `simulate_colouring` (lines 106-111) together with
`ColourAgent.__init__` (lines 20-29): every node's agent is rebuilt from the
node's stored colour attribute, coerced to `None` when it is outside the
current palette. -/
def init_sim (adj : Nat → List Nat) (stored : Nat → Colour)
    (palette : List Colour) (sb : ScoreBoard) : Sim :=
  { adj := adj
    scores := sb
    palette := palette
    colour := fun i => if stored i ∈ palette then some (stored i) else none }

/-- The decision loop of `simulate_colouring` (lines 115-120): visit the
nodes in order; each agent perceives and decides; a `False` decision aborts
the pass with result `False`. -/
def colouring_pass : Sim → List Nat → Option (Bool × Sim)
  | s, [] => some (true, s)
  | s, n :: rest =>
    match decide_new_colour s n (perceive_environment s n) with
    | none => none
    | some (b, s1) => if b then colouring_pass s1 rest else some (false, s1)

/-- `simulate_colouring` (lines 106-120): rebuild all agents, then run the
sequential decision pass over the node enumeration. -/
def simulate_colouring (adj : Nat → List Nat) (stored : Nat → Colour)
    (palette : List Colour) (sb : ScoreBoard) (nodes : List Nat) :
    Option (Bool × Sim) :=
  colouring_pass (init_sim adj stored palette sb) nodes

end Negotiate

namespace RandomVariant

/-- Global state of the sequential random variant (agent_remove_random.py):
adjacency, committed colours, palette.  This variant keeps no scores. -/
structure Sim where
  adj : Nat → List Nat
  colour : Nat → Option Colour
  palette : List Colour

/-- `perceive_environment` (lines 33-42). -/
def perceive_environment (s : Sim) (i : Nat) : List (Option Colour) :=
  (s.adj i).map fun n => s.colour n

/-- `decide_new_colour` (lines 44-61).  `pick` models `random.choice` over
the (never empty at the call site) list of available colours. -/
def decide_new_colour (pick : List Colour → Colour) (s : Sim) (i : Nat)
    (nbrCols : List (Option Colour)) : Bool × Sim :=
  let available :=
    s.palette.filter (fun c => some c ∉ nbrCols ∧ some c ≠ s.colour i)
  if s.colour i ∈ nbrCols ∨ s.colour i = none then
    if available = [] then (false, s)
    else
      (true,
        { s with
          colour := fun j => if j = i then some (pick available) else s.colour j })
  else (true, s)

/-- Agent construction of `simulate_colouring` (lines 89-93) with the
coercion of `ColourAgent.__init__` (lines 24-30): a stored colour outside the
palette becomes `None`. -/
def init_sim (adj : Nat → List Nat) (stored : Nat → Colour)
    (palette : List Colour) : Sim :=
  { adj := adj
    palette := palette
    colour := fun i => if stored i ∈ palette then some (stored i) else none }

/-- The decision loop of `simulate_colouring` (lines 97-102). -/
def colouring_pass (pick : List Colour → Colour) :
    Sim → List Nat → Bool × Sim
  | s, [] => (true, s)
  | s, n :: rest =>
    match decide_new_colour pick s n (perceive_environment s n) with
    | (b, s1) => if b then colouring_pass pick s1 rest else (false, s1)

/-- `simulate_colouring` (lines 75-102): rebuild all agents, then run the
sequential decision pass. -/
def simulate_colouring (pick : List Colour → Colour) (adj : Nat → List Nat)
    (stored : Nat → Colour) (palette : List Colour) (nodes : List Nat) :
    Bool × Sim :=
  colouring_pass pick (init_sim adj stored palette) nodes

end RandomVariant

namespace Async

/-- Per-node agent of the concurrent variant (async_agent.py lines 16-27):
committed colour, intended colour, the palette reference and the score
dictionary reference it holds. -/
structure Agent where
  colour : Option Colour
  intended : Option Colour
  palette : List Colour
  scores : ScoreBoard

/-- Global state: adjacency plus the agent of every node. -/
structure St where
  adj : Nat → List Nat
  agents : Nat → Agent

/-- `perceive_environment` (lines 114-117). -/
def perceive_environment (st : St) (i : Nat) : List (Option Colour) :=
  (st.adj i).map fun n => (st.agents n).colour

/-- Replacing node `i`'s agent after a mutation. -/
def setAgent (st : St) (i : Nat) (a : Agent) : St :=
  { st with agents := fun j => if j = i then a else st.agents j }

/-- `change_intent` (lines 59-76): recompute the colours still free of the
perceived neighbour colours, drop the current intended colour, and take the
score-maximal remaining colour; with none remaining, take the score-maximal
neighbour colour (`max` uses `.get(c, 0)`, so unset neighbour colours score
0 there); `max([])` raises (`none`). -/
def change_intent (st : St) (i : Nat) : Option Agent :=
  let a := st.agents i
  let nbrCols := perceive_environment st i
  let avail0 := a.palette.filter (fun c => some c ∉ nbrCols)
  match avail0.filter (fun c => some c ≠ a.intended) with
  | c :: cs => some { a with intended := some (argmaxFirst a.scores c cs) }
  | [] =>
    match nbrCols with
    | [] => none
    | x :: xs => some { a with intended := argmaxFirst (getScore a.scores) x xs }

/-- `negotiate_intent` (lines 38-57), invoked on the agent of `selfId` with
the broadcast intent `nIntended` of neighbour `neighId`.  With colliding
intents, the score dictionary is indexed directly, so a `None` intent raises
(`none`); the winner by degree, then score, then node id stays, and the
loser's `change_intent` runs. -/
def negotiate_intent (st : St) (selfId neighId : Nat)
    (nIntended : Option Colour) : Option St :=
  if nIntended = (st.agents selfId).intended then
    match (st.agents selfId).intended, nIntended with
    | some c, some c2 =>
      let myDeg := (st.adj selfId).length
      let nDeg := (st.adj neighId).length
      let myScore := (st.agents selfId).scores c
      let nScore := (st.agents neighId).scores c2
      if myDeg > nDeg ∨ (myDeg = nDeg ∧ myScore > nScore) ∨
          (myDeg = nDeg ∧ myScore = nScore ∧ selfId > neighId) then
        (change_intent st neighId).map (setAgent st neighId)
      else
        (change_intent st selfId).map (setAgent st selfId)
    | _, _ => none
  else some st

/-- Lines 90-93 of async_agent.py: set the intent to `c`, and when it
differs from the committed colour, commit it and apply the ±5 score update of
`update_colour_score` (lines 119-125) against the neighbour colours. -/
def commit (a : Agent) (nbrCols : List (Option Colour)) (c : Colour) : Agent :=
  if some c = a.colour then { a with intended := some c }
  else
    { a with
      intended := some c
      colour := some c
      scores :=
        if nbrCols.any (fun oc => oc = some c) then
          fun c2 => if c2 = c then a.scores c - 5 else a.scores c2
        else
          fun c2 => if c2 = c then a.scores c + 5 else a.scores c2 }

/-- `decide_new_colour` (lines 78-94) as a function of the agent and the
perceived neighbour colours: the score-maximal available colour, or with no
colour available the score-maximal neighbour colour (here the sort key
indexes the dictionary directly, so an unset neighbour colour raises, as
does taking the head of an empty sorted list); the intent is then committed
by `commit`. -/
def decide_new_colour (a : Agent) (nbrCols : List (Option Colour)) :
    Option Agent :=
  match a.palette.filter (fun c => some c ∉ nbrCols) with
  | c :: cs => some (commit a nbrCols (argmaxFirst a.scores c cs))
  | [] =>
    if nbrCols.any (fun oc => oc = none) then none
    else
      match nbrCols with
      | [] => none
      | x :: xs =>
        match argmaxFirst (getScore a.scores) x xs with
        | some c => some (commit a nbrCols c)
        | none => none

end Async

/-! ## Helper lemmas -/

namespace Negotiate

theorem colour_negotiation_mem (s : Sim) (i : Nat)
    (l : List (Option Colour)) (oc : Option Colour)
    (h : colour_negotiation s i l = some oc) : oc ∈ l := by
  cases l with
  | nil => exact absurd h (by simp [colour_negotiation])
  | cons x xs =>
    have hx : oc = argmaxFirst (assess_colour s i) x xs := by
      simpa [colour_negotiation] using h.symm
    rw [hx]
    exact argmaxFirst_mem _ _ _

theorem decide_new_colour_fst_true (s : Sim) (i : Nat)
    (nc : List (Option Colour)) :
    (decide_new_colour s i nc).all (fun r => r.1) = true := by
  unfold decide_new_colour
  dsimp only
  split
  · cases colour_negotiation s i nc <;> rfl
  · split
    · rcases h : colour_negotiation s i
        ((s.palette.filter (fun c => some c ∉ nc ∧ some c ≠ s.colour i)).map some)
        with _ | _ | c <;> simp [h, Option.all]
    · rfl

theorem colouring_pass_fst_true (s : Sim) (nodes : List Nat) :
    (colouring_pass s nodes).all (fun r => r.1) = true := by
  induction nodes generalizing s with
  | nil => rfl
  | cons n rest ih =>
    unfold colouring_pass
    cases h : decide_new_colour s n (perceive_environment s n) with
    | none => rfl
    | some r =>
      have hb : r.1 = true := by
        have := decide_new_colour_fst_true s n (perceive_environment s n)
        rw [h] at this
        simpa [Option.all] using this
      simp only [hb, if_true]
      exact ih r.2

end Negotiate

namespace RandomVariant

theorem colouring_pass_no_change (pick : List Colour → Colour)
    (s : Sim) (order : List Nat)
    (h : ∀ i ∈ order,
      s.colour i ≠ none ∧ s.colour i ∉ perceive_environment s i) :
    colouring_pass pick s order = (true, s) := by
  induction order with
  | nil => rfl
  | cons n rest ih =>
    obtain ⟨hset, hconf⟩ := h n (List.mem_cons_self _ _)
    have hd : decide_new_colour pick s n (perceive_environment s n) =
        (true, s) := by
      unfold decide_new_colour
      dsimp only
      rw [if_neg (by push_neg; exact ⟨hconf, hset⟩)]
    unfold colouring_pass
    rw [hd]
    exact ih fun i hi => h i (List.mem_cons_of_mem _ hi)

end RandomVariant

/-! ## Claim theorems -/

/-- Claim C10: in the sequential negotiating variant, `decide_new_colour`
never returns `False` (the `return False` on line 55 sits under
`if self.intended_colour is None or True`, whose else-branch is unreachable),
hence `simulate_colouring` never returns `False` either and the caller's
early-termination test `not simulate_colouring(...)` can never fire.
Whenever the functions return a value at all (`some`), its boolean is
`true`. -/
theorem c10_decide_always_true :
    (∀ (s : Negotiate.Sim) (i : Nat) (nc : List (Option Colour)),
      (Negotiate.decide_new_colour s i nc).all (fun r => r.1) = true) ∧
    (∀ (s : Negotiate.Sim) (nodes : List Nat),
      (Negotiate.colouring_pass s nodes).all (fun r => r.1) = true) ∧
    (∀ (adj : Nat → List Nat) (stored : Nat → Colour) (palette : List Colour)
        (sb : ScoreBoard) (nodes : List Nat),
      (Negotiate.simulate_colouring adj stored palette sb nodes).all
        (fun r => r.1) = true) :=
  ⟨Negotiate.decide_new_colour_fst_true,
   Negotiate.colouring_pass_fst_true,
   fun adj stored palette sb nodes =>
     Negotiate.colouring_pass_fst_true (Negotiate.init_sim adj stored palette sb)
       nodes⟩

/-- Concrete two-node graph with one edge, used in several scenarios. -/
def adjPath : Nat → List Nat
  | 0 => [1]
  | 1 => [0]
  | _ => []

/-- State for the C1 counterexample: palette `[0]`, both nodes committed to
colour 0, so node 0's candidate set is empty and its colour conflicts. -/
def simC1 : Negotiate.Sim :=
  { adj := adjPath
    colour := fun i => if i = 0 then some 0 else if i = 1 then some 0 else none
    scores := fun _ => 0
    palette := [0] }

/-- Claim C1 counterexample: at an input with an empty candidate set the
negotiating `decide_new_colour` produces a fallback colour but returns
`True`, not the failure signal `False` the claim asserts; and the random
variant (same palette and neighbour colours, conflicted current colour)
returns `False` without producing any fallback colour, leaving the colour
unchanged. -/
theorem c1_fallback_returns_true_cex :
    (Negotiate.decide_new_colour simC1 0 [some 0]).map Prod.fst = some true ∧
    (RandomVariant.decide_new_colour (fun l => l.headD 0)
        { adj := adjPath
          colour := fun i => if i = 0 then some 0 else if i = 1 then some 0 else none
          palette := [0] } 0 [some 0]).1 = false ∧
    (RandomVariant.decide_new_colour (fun l => l.headD 0)
        { adj := adjPath
          colour := fun i => if i = 0 then some 0 else if i = 1 then some 0 else none
          palette := [0] } 0 [some 0]).2.colour 0 = some 0 := by
  refine ⟨rfl, rfl, rfl⟩

/-- Claim C1 amended: with an empty candidate set, the negotiating variant's
`decide_new_colour` still produces a colour via the degraded fallback but
returns success (`true`, never `false`); the failure signal `false` exists
only in the random variant, which returns it without producing any colour
(its state is unchanged) when the candidate set is empty and the current
colour conflicts or is unset. -/
theorem c1_fallback_signal_amended :
    (∀ (s : Negotiate.Sim) (i : Nat) (nc : List (Option Colour)),
      s.palette.filter (fun c => some c ∉ nc ∧ some c ≠ s.colour i) = [] →
      nc ≠ [] →
      Negotiate.decide_new_colour s i nc ≠ none ∧
      ∀ b s1, Negotiate.decide_new_colour s i nc = some (b, s1) → b = true) ∧
    (∀ (pick : List Colour → Colour) (s : RandomVariant.Sim) (i : Nat)
        (nc : List (Option Colour)),
      s.palette.filter (fun c => some c ∉ nc ∧ some c ≠ s.colour i) = [] →
      (s.colour i ∈ nc ∨ s.colour i = none) →
      RandomVariant.decide_new_colour pick s i nc = (false, s)) := by
  constructor
  · intro s i nc hav hne
    cases nc with
    | nil => exact absurd rfl hne
    | cons x xs =>
      unfold Negotiate.decide_new_colour
      simp only [hav, if_pos, Negotiate.colour_negotiation]
      exact ⟨by simp, by intro b s1 h; simpa using congrArg (Option.map Prod.fst) h⟩
  · intro pick s i nc hav hcond
    unfold RandomVariant.decide_new_colour
    dsimp only
    rw [hav, if_pos hcond]
    simp

/-- Witness for the amended C1 at the concrete counterexample inputs. -/
theorem c1_fallback_signal_witness :
    (simC1.palette.filter
        (fun c => some c ∉ [some 0] ∧ some c ≠ simC1.colour 0) = []) ∧
    ([some 0] ≠ ([] : List (Option Colour))) ∧
    Negotiate.decide_new_colour simC1 0 [some 0] ≠ none := by
  refine ⟨by decide, by decide, ?_⟩
  exact (c1_fallback_signal_amended.1 simC1 0 [some 0] (by decide) (by decide)).1

/-- State for the C6 counterexample in the random variant: node 0's colour
is unset, and the single palette colour is taken by its neighbour. -/
def simC6 : RandomVariant.Sim :=
  { adj := adjPath
    colour := fun _ => none
    palette := [0] }

/-- State for the second C6 counterexample: an isolated node holding the
only palette colour makes the negotiating fallback call
`random.choice([])`, which raises. -/
def simC6iso : Negotiate.Sim :=
  { adj := fun _ => []
    colour := fun _ => some 0
    scores := fun _ => 0
    palette := [0] }

/-- Claim C6 counterexample: with an empty candidate set, the random
variant's `decide_new_colour` returns `False` and leaves the agent's colour
unset (node 0 stays `None`); and the negotiating variant's decide on an
isolated node whose colour is the only palette colour raises
(`random.choice` of an empty list), modelled as `none` — so decide neither
always terminates normally nor always leaves a defined colour. -/
theorem c6_fallback_progress_cex :
    (RandomVariant.decide_new_colour (fun l => l.headD 0) simC6 0 [some 0]).1
        = false ∧
    (RandomVariant.decide_new_colour (fun l => l.headD 0) simC6 0
        [some 0]).2.colour 0 = none ∧
    Negotiate.decide_new_colour simC6iso 0 [] = none := by
  refine ⟨rfl, rfl, rfl⟩

/-- Claim C6 amended: with an empty candidate set, the negotiating
variant's decide terminates normally and commits a colour drawn from the
neighbours' perceived colours — in particular a set (non-unset) colour
whenever at least one neighbour exists and every neighbour colour is set;
the random variant instead returns `False` and leaves the colour unchanged,
and the negotiating decide of an agent with no neighbours and an empty
candidate set raises. -/
theorem c6_fallback_progress_amended :
    ∀ (s : Negotiate.Sim) (i : Nat) (nc : List (Option Colour)),
      s.palette.filter (fun c => some c ∉ nc ∧ some c ≠ s.colour i) = [] →
      nc ≠ [] →
      (∀ oc ∈ nc, oc ≠ none) →
      Negotiate.decide_new_colour s i nc ≠ none ∧
      ∀ b s1, Negotiate.decide_new_colour s i nc = some (b, s1) →
        b = true ∧ s1.colour i ≠ none ∧ s1.colour i ∈ nc := by
  intro s i nc hav hne hset
  cases nc with
  | nil => exact absurd rfl hne
  | cons x xs =>
    have hd : Negotiate.decide_new_colour s i (x :: xs) =
        some (true,
          { s with colour := fun j => if j = i
              then argmaxFirst (Negotiate.assess_colour s i) x xs
              else s.colour j }) := by
      unfold Negotiate.decide_new_colour
      dsimp only
      rw [hav]
      simp [Negotiate.colour_negotiation]
    refine ⟨by rw [hd]; simp, ?_⟩
    intro b s1 h
    rw [hd] at h
    have hb : b = true := by
      simpa using congrArg (Option.map Prod.fst) h
    have hs1 : s1.colour i = argmaxFirst (Negotiate.assess_colour s i) x xs := by
      have := congrArg (Option.map (fun r => r.2.colour i)) h
      simpa using this.symm
    have hmem : s1.colour i ∈ x :: xs := by
      rw [hs1]; exact argmaxFirst_mem _ _ _
    exact ⟨hb, hset _ hmem, hmem⟩

/-- Witness for the amended C6 at a concrete input: node 0 of `simC1`
(palette `[0]`, neighbour colour `some 0`) has empty candidates, and decide
commits the set colour `some 0` and returns `true`. -/
theorem c6_fallback_progress_witness :
    (simC1.palette.filter
        (fun c => some c ∉ [some 0] ∧ some c ≠ simC1.colour 0) = []) ∧
    (Negotiate.decide_new_colour simC1 0 [some 0]).map
        (fun r => (r.1, r.2.colour 0)) = some (true, some 0) := by
  refine ⟨by decide, ?_⟩
  have h := c6_fallback_progress_amended simC1 0 [some 0] (by decide)
    (by decide) (by decide)
  cases hd : Negotiate.decide_new_colour simC1 0 [some 0] with
  | none => exact absurd hd h.1
  | some r =>
    obtain ⟨hb, -, hmem⟩ := h.2 r.1 r.2 (by rw [hd])
    have hcol : r.2.colour 0 = some 0 := List.mem_singleton.mp hmem
    simp [hb, hcol]

/-- State for the C7 counterexample: two adjacent nodes, palette `[0,1]`,
conflict-free colours 0 and 1 — yet one decision round swaps both colours
because each agent's candidate set is empty and the degraded fallback
overwrites its colour with a neighbour colour. -/
def simC7 : Negotiate.Sim :=
  { adj := adjPath
    colour := fun i => if i = 0 then some 0 else if i = 1 then some 1 else none
    scores := fun _ => 0
    palette := [0, 1] }

/-- Claim C7 counterexample: `simC7` is conflict-free (zero conflicts, all
colours set), yet one sequential decision round of the negotiating variant
changes both agents' colours (0 and 1 swap to 1 and 0): the round is not a
no-op at this fixed point. -/
theorem c7_fixed_point_cex :
    count_conflicts simC7.adj simC7.colour [0, 1] = 0 ∧
    simC7.colour 0 = some 0 ∧ simC7.colour 1 = some 1 ∧
    (Negotiate.colouring_pass simC7 [0, 1]).map
        (fun r => (r.1, r.2.colour 0, r.2.colour 1)) =
      some (true, some 1, some 0) := by
  refine ⟨by decide, by decide, by decide, by decide⟩

/-- Claim C7 amended: if every agent's colour is set, no agent's colour
appears among its perceived neighbour colours, and — in the negotiating
variant — every agent's candidate set is non-empty, then one full
sequential decision round changes no agent's colour and every per-agent
decide returns success making no change (the pass returns the entire state
unchanged).  The random variant needs no candidate-set condition. -/
theorem c7_fixed_point_amended :
    (∀ (s : Negotiate.Sim) (order : List Nat),
      (∀ i ∈ order,
        s.colour i ≠ none ∧
        s.colour i ∉ Negotiate.perceive_environment s i ∧
        s.palette.filter
          (fun c => some c ∉ Negotiate.perceive_environment s i ∧
            some c ≠ s.colour i) ≠ []) →
      Negotiate.colouring_pass s order = some (true, s)) ∧
    (∀ (pick : List Colour → Colour) (s : RandomVariant.Sim)
        (order : List Nat),
      (∀ i ∈ order,
        s.colour i ≠ none ∧
        s.colour i ∉ RandomVariant.perceive_environment s i) →
      RandomVariant.colouring_pass pick s order = (true, s)) := by
  constructor
  · intro s order h
    induction order with
    | nil => rfl
    | cons n rest ih =>
      obtain ⟨hset, hconf, hav⟩ := h n (List.mem_cons_self _ _)
      have hd : Negotiate.decide_new_colour s n
          (Negotiate.perceive_environment s n) = some (true, s) := by
        unfold Negotiate.decide_new_colour
        dsimp only
        rw [if_neg hav, if_neg (by push_neg; exact ⟨hconf, hset⟩)]
      unfold Negotiate.colouring_pass
      rw [hd]
      exact ih fun i hi => h i (List.mem_cons_of_mem _ hi)
  · exact RandomVariant.colouring_pass_no_change

/-- State for the C7 witness: the same two-node conflict-free graph but a
palette with a third colour, so both candidate sets are non-empty. -/
def simC7w : Negotiate.Sim :=
  { adj := adjPath
    colour := fun i => if i = 0 then some 0 else if i = 1 then some 1 else none
    scores := fun _ => 0
    palette := [0, 1, 2] }

/-- Witness for the amended C7 at a concrete conflict-free state with
non-empty candidate sets: the full round returns the state unchanged. -/
theorem c7_fixed_point_witness :
    (∀ i ∈ [0, 1],
      simC7w.colour i ≠ none ∧
      simC7w.colour i ∉ Negotiate.perceive_environment simC7w i ∧
      simC7w.palette.filter
        (fun c => some c ∉ Negotiate.perceive_environment simC7w i ∧
          some c ≠ simC7w.colour i) ≠ []) ∧
    Negotiate.colouring_pass simC7w [0, 1] = some (true, simC7w) := by
  refine ⟨by decide, ?_⟩
  exact c7_fixed_point_amended.1 simC7w [0, 1] (by decide)

/-- Adjacency of the 4-node cycle 0-1-2-3-0 of scenario A. -/
def adjCycle : Nat → List Nat
  | 0 => [1, 3]
  | 1 => [0, 2]
  | 2 => [1, 3]
  | 3 => [2, 0]
  | _ => []

/-- Stored starting colours `[0, 1, 0, 1]` of scenario A. -/
def storedCycle : Nat → Colour
  | 0 => 0
  | 1 => 1
  | 2 => 0
  | 3 => 1
  | _ => 0

/-- Claim C8 counterexample: one sequential round of the negotiating
variant on the 4-cycle with palette `{0,1}`, starting colours `[0,1,0,1]`
and the all-zero score dictionary ends with colours `[1,1,1,0]` and two
conflicts, not zero: every agent's candidate set is empty at its turn and
the degraded fallback recolours nodes 0 and 1 into a conflict. -/
theorem c8_cycle_negotiate_cex :
    (Negotiate.simulate_colouring adjCycle storedCycle [0, 1] (fun _ => 0)
        [0, 1, 2, 3]).map
      (fun r => (r.1, count_conflicts adjCycle r.2.colour [0, 1, 2, 3])) =
      some (true, 2) := by
  decide

/-- Claim C8 amended: on the 4-node cycle 0-1-2-3-0 with palette `{0,1}`
and starting colours alternating `[0,1,0,1]`, one sequential decision round
of the random variant yields zero conflicts (every decide succeeds and the
colours are unchanged); the negotiating variant can instead end the round
with two conflicts (counterexample above). -/
theorem c8_cycle_random_round :
    ∀ pick : List Colour → Colour,
      (RandomVariant.simulate_colouring pick adjCycle storedCycle [0, 1]
          [0, 1, 2, 3]).1 = true ∧
      count_conflicts adjCycle
        (RandomVariant.simulate_colouring pick adjCycle storedCycle [0, 1]
            [0, 1, 2, 3]).2.colour [0, 1, 2, 3] = 0 := by
  intro pick
  have hp := RandomVariant.colouring_pass_no_change pick
    (RandomVariant.init_sim adjCycle storedCycle [0, 1]) [0, 1, 2, 3]
    (by decide)
  unfold RandomVariant.simulate_colouring
  rw [hp]
  exact ⟨rfl, by decide⟩

theorem foldl_congr_fun {α β : Type} {f g : β → α → β} (l : List α) (a : β)
    (h : ∀ b x, f b x = g b x) : l.foldl f a = l.foldl g a := by
  induction l generalizing a with
  | nil => rfl
  | cons x xs ih => simp only [List.foldl_cons, h, ih]

/-- The per-neighbour adjustment of `assess` exactly as claim C3 words it:
the neighbour outranks me — and my running assessed score drops by 1 — when
the neighbour has strictly higher degree, or equal degree with strictly
higher score than my running assessed score, or equal degree and equal
score but a LOWER node id; in every other case the score rises by 1. -/
def assess_colour_claimed (s : Negotiate.Sim) (i : Nat) (oc : Option Colour) :
    Int :=
  (s.adj i).foldl
    (fun my n =>
      if Negotiate.degree s n > Negotiate.degree s i ∨
          (Negotiate.degree s n = Negotiate.degree s i ∧
            getScore s.scores oc > my) ∨
          (Negotiate.degree s n = Negotiate.degree s i ∧
            getScore s.scores oc = my ∧ n < i)
      then my - 1 else my + 1)
    (getScore s.scores oc)

/-- The claim with the direction of the id tie-break corrected: the
neighbour outranks me when, degrees and scores being equal, it has the
HIGHER node id (consistent with the higher-id-wins negotiation rule). -/
def assess_colour_corrected (s : Negotiate.Sim) (i : Nat)
    (oc : Option Colour) : Int :=
  (s.adj i).foldl
    (fun my n =>
      if Negotiate.degree s n > Negotiate.degree s i ∨
          (Negotiate.degree s n = Negotiate.degree s i ∧
            getScore s.scores oc > my) ∨
          (Negotiate.degree s n = Negotiate.degree s i ∧
            getScore s.scores oc = my ∧ i < n)
      then my - 1 else my + 1)
    (getScore s.scores oc)

/-- State for the C3 counterexample: two adjacent nodes of equal degree 1
and all-zero scores, so the id tie-break decides the adjustment. -/
def simC3 : Negotiate.Sim :=
  { adj := adjPath
    colour := fun _ => none
    scores := fun _ => 0
    palette := [0, 1] }

/-- Claim C3 counterexample: node 0 with its single equal-degree,
equal-score neighbour of HIGHER id 1 is decremented by the code
(`self.node_id < neighbour_id`), giving −1, while the claimed rule (the
neighbour outranks only with a LOWER id) predicts +1. -/
theorem c3_assess_id_direction_cex :
    Negotiate.assess_colour simC3 0 (some 5) = -1 ∧
    assess_colour_claimed simC3 0 (some 5) = 1 := by
  refine ⟨by decide, by decide⟩

/-- Claim C3 amended: `assess(colour)` returns the agent's own ScoreBoard
value for the colour adjusted once per neighbour — decremented by 1 when
the neighbour has strictly higher degree, or equal degree with strictly
higher score than the running assessed value, or equal degree and equal
score but a HIGHER node id; incremented by 1 in every other case. -/
theorem c3_assess_characterisation :
    ∀ (s : Negotiate.Sim) (i : Nat) (oc : Option Colour),
      Negotiate.assess_colour s i oc = assess_colour_corrected s i oc := by
  intro s i oc
  unfold Negotiate.assess_colour assess_colour_corrected
  refine foldl_congr_fun _ _ ?_
  intro my n
  split_ifs <;> omega

/-- The palette-containment property of a committed colour: unset, or a
member of the given palette. -/
def inPaletteOpt (palette : List Colour) : Option Colour → Prop
  | none => True
  | some c => c ∈ palette

/-- Agent for the C5 counterexample: palette `{0,1}`, committed colour 0,
and a score table preferring colour 2. -/
def agentC5 : Async.Agent :=
  { colour := some 0
    intended := none
    palette := [0, 1]
    scores := fun c => if c = 2 then 9 else 0 }

/-- Claim C5 counterexample: the concurrent variant's decision step commits
a colour outside the active palette.  With palette `{0,1}` and perceived
neighbour colours `[0, 1, 2]` (2 is a stale colour a neighbour kept after
the palette shrank), no palette colour is available, and the fallback
commits the best-scoring neighbour colour 2 — which is neither unset nor in
the palette. -/
theorem c5_palette_containment_cex :
    (Async.decide_new_colour agentC5 [some 0, some 1, some 2]).map
        (fun a => a.colour) = some (some 2) ∧
    (2 : Colour) ∉ agentC5.palette := by
  refine ⟨by decide, by decide⟩

/-- Claim C5 amended: agents are created with out-of-palette stored colours
coerced to unset, and the sequential variants' decision steps preserve
palette containment whenever the agent's own colour and every perceived
neighbour colour is unset-or-in-palette; but after the palette shrinks, a
neighbour may hold a stale out-of-palette colour and the empty-candidates
fallback can then commit it (counterexample above), so containment holds
only under that neighbour condition. -/
theorem c5_palette_containment_amended :
    (∀ (adj : Nat → List Nat) (stored : Nat → Colour) (palette : List Colour)
        (sb : ScoreBoard) (i : Nat),
      inPaletteOpt palette ((Negotiate.init_sim adj stored palette sb).colour i)) ∧
    (∀ (s : Negotiate.Sim) (i : Nat) (nc : List (Option Colour)),
      inPaletteOpt s.palette (s.colour i) →
      (∀ oc ∈ nc, inPaletteOpt s.palette oc) →
      ∀ b s1, Negotiate.decide_new_colour s i nc = some (b, s1) →
        inPaletteOpt s.palette (s1.colour i)) ∧
    (∀ (pick : List Colour → Colour) (s : RandomVariant.Sim) (i : Nat)
        (nc : List (Option Colour)),
      (∀ l, l ≠ [] → pick l ∈ l) →
      inPaletteOpt s.palette (s.colour i) →
      inPaletteOpt s.palette
        ((RandomVariant.decide_new_colour pick s i nc).2.colour i)) := by
  refine ⟨?_, ?_, ?_⟩
  · intro adj stored palette sb i
    unfold Negotiate.init_sim
    dsimp only
    split
    · assumption
    · trivial
  · intro s i nc hself hnc b s1 h
    by_cases hav :
        s.palette.filter (fun c => some c ∉ nc ∧ some c ≠ s.colour i) = []
    · cases hcn : Negotiate.colour_negotiation s i nc with
      | none =>
        have hd : Negotiate.decide_new_colour s i nc = none := by
          unfold Negotiate.decide_new_colour
          dsimp only
          rw [if_pos hav, hcn]
        rw [hd] at h
        exact absurd h (by simp)
      | some oc =>
        have hd : Negotiate.decide_new_colour s i nc = some (true,
            { s with colour := fun j => if j = i then oc else s.colour j }) := by
          unfold Negotiate.decide_new_colour
          dsimp only
          rw [if_pos hav, hcn]
        rw [hd] at h
        have hs1 : s1 =
            { s with colour := fun j => if j = i then oc else s.colour j } :=
          (congrArg Prod.snd (Option.some.inj h)).symm
        rw [hs1]
        show inPaletteOpt s.palette (if i = i then oc else s.colour i)
        rw [if_pos rfl]
        exact hnc oc (Negotiate.colour_negotiation_mem s i nc oc hcn)
    · by_cases hc : s.colour i ∈ nc ∨ s.colour i = none
      · cases hcn : Negotiate.colour_negotiation s i
            ((s.palette.filter
              (fun c => some c ∉ nc ∧ some c ≠ s.colour i)).map some) with
        | none =>
          have hd : Negotiate.decide_new_colour s i nc = none := by
            unfold Negotiate.decide_new_colour
            dsimp only
            rw [if_neg hav, if_pos hc, hcn]
          rw [hd] at h
          exact absurd h (by simp)
        | some oc =>
          have hoc := Negotiate.colour_negotiation_mem s i _ oc hcn
          rw [List.mem_map] at hoc
          obtain ⟨c, hcmem, hceq⟩ := hoc
          rw [← hceq] at hcn
          have hd : Negotiate.decide_new_colour s i nc = some (true,
              Negotiate.update_colour_score
                { s with colour := fun j => if j = i then some c else s.colour j }
                i c) := by
            unfold Negotiate.decide_new_colour
            dsimp only
            rw [if_neg hav, if_pos hc, hcn]
          rw [hd] at h
          have hs1 : s1 = Negotiate.update_colour_score
              { s with colour := fun j => if j = i then some c else s.colour j }
              i c :=
            (congrArg Prod.snd (Option.some.inj h)).symm
          have hcol : s1.colour i = some c := by
            rw [hs1]
            unfold Negotiate.update_colour_score
            split
            · show (if i = i then some c else s.colour i) = some c
              rw [if_pos rfl]
            · show (if i = i then some c else s.colour i) = some c
              rw [if_pos rfl]
          rw [hcol]
          exact (List.mem_filter.mp hcmem).1
      · have hd : Negotiate.decide_new_colour s i nc = some (true, s) := by
          unfold Negotiate.decide_new_colour
          dsimp only
          rw [if_neg hav, if_neg hc]
        rw [hd] at h
        have hs1 : s1 = s := (congrArg Prod.snd (Option.some.inj h)).symm
        rw [hs1]
        exact hself
  · intro pick s i nc hpick hself
    unfold RandomVariant.decide_new_colour
    dsimp only
    by_cases hc : s.colour i ∈ nc ∨ s.colour i = none
    · rw [if_pos hc]
      by_cases hav :
          s.palette.filter (fun c => some c ∉ nc ∧ some c ≠ s.colour i) = []
      · rw [if_pos hav]
        exact hself
      · rw [if_neg hav]
        have hmem := hpick _ hav
        have hpal : pick (s.palette.filter
            (fun c => some c ∉ nc ∧ some c ≠ s.colour i)) ∈ s.palette :=
          (List.mem_filter.mp hmem).1
        simpa [inPaletteOpt] using hpal
    · rw [if_neg hc]
      exact hself

/-- Witness for the amended C5 at concrete inputs: a freshly created agent
with out-of-palette stored colour is unset, and a negotiating decide whose
neighbours are all inside palette-or-unset keeps the colour inside
palette-or-unset. -/
theorem c5_palette_containment_witness :
    inPaletteOpt [0, 1]
      ((Negotiate.init_sim adjPath (fun _ => 7) [0, 1] fun _ => 0).colour 0) ∧
    inPaletteOpt simC7.palette (simC7.colour 0) ∧
    (∀ oc ∈ [some 1], inPaletteOpt simC7.palette oc) ∧
    ∀ b s1, Negotiate.decide_new_colour simC7 0 [some 1] = some (b, s1) →
      inPaletteOpt simC7.palette (s1.colour 0) := by
  refine ⟨?_, ?_, ?_, ?_⟩
  · exact c5_palette_containment_amended.1 adjPath (fun _ => 7) [0, 1]
      (fun _ => 0) 0
  · simp [inPaletteOpt, simC7]
  · intro oc hoc
    rw [List.mem_singleton.mp hoc]
    simp [inPaletteOpt, simC7]
  · refine c5_palette_containment_amended.2.1 simC7 0 [some 1] ?_ ?_
    · simp [inPaletteOpt, simC7]
    · intro oc hoc
      rw [List.mem_singleton.mp hoc]
      simp [inPaletteOpt, simC7]

namespace Async

/-- The winner cascade exactly as claim C2 words it, for the receiving
agent `x` against broadcaster `y` contesting colour `c`: strictly higher
degree wins; with equal degrees, strictly higher score for the contested
colour wins; with equal degrees and equal scores, the higher node id
wins. -/
def winsOver (st : St) (x y : Nat) (c : Colour) : Prop :=
  (st.adj x).length > (st.adj y).length ∨
    ((st.adj x).length = (st.adj y).length ∧
      ((st.agents x).scores c > (st.agents y).scores c ∨
        ((st.agents x).scores c = (st.agents y).scores c ∧ x > y)))

end Async

/-- Claim C2: when two agents' intended colours collide on `c`, the
negotiation deterministically selects the winner by strictly higher degree,
then strictly higher score for the contested colour, then higher node id,
and only the loser's intent is changed (via `change_intent`); the winner's
agent state is untouched. -/
theorem c2_tiebreak_winner (st : Async.St) (x y : Nat) (c : Colour)
    (hx : (st.agents x).intended = some c)
    (hy : (st.agents y).intended = some c)
    (hxy : x ≠ y) :
    (Async.winsOver st x y c →
      Async.negotiate_intent st x y (some c) =
        (Async.change_intent st y).map (Async.setAgent st y) ∧
      ∀ st2, Async.negotiate_intent st x y (some c) = some st2 →
        st2.agents x = st.agents x) ∧
    (¬ Async.winsOver st x y c →
      Async.negotiate_intent st x y (some c) =
        (Async.change_intent st x).map (Async.setAgent st x) ∧
      ∀ st2, Async.negotiate_intent st x y (some c) = some st2 →
        st2.agents y = st.agents y) := by
  constructor
  · intro hw
    have hcond : (st.adj x).length > (st.adj y).length ∨
        ((st.adj x).length = (st.adj y).length ∧
          (st.agents x).scores c > (st.agents y).scores c) ∨
        ((st.adj x).length = (st.adj y).length ∧
          (st.agents x).scores c = (st.agents y).scores c ∧ x > y) := by
      unfold Async.winsOver at hw
      tauto
    have hd : Async.negotiate_intent st x y (some c) =
        (Async.change_intent st y).map (Async.setAgent st y) := by
      unfold Async.negotiate_intent
      rw [hx, if_pos rfl]
      dsimp only
      rw [if_pos hcond]
    refine ⟨hd, ?_⟩
    intro st2 h2
    rw [hd] at h2
    cases hci : Async.change_intent st y with
    | none => rw [hci] at h2; exact absurd h2 (by simp)
    | some a =>
      rw [hci] at h2
      have hst2 : st2 = Async.setAgent st y a := (Option.some.inj h2).symm
      rw [hst2]
      show (if x = y then a else st.agents x) = st.agents x
      rw [if_neg hxy]
  · intro hw
    have hcond : ¬ ((st.adj x).length > (st.adj y).length ∨
        ((st.adj x).length = (st.adj y).length ∧
          (st.agents x).scores c > (st.agents y).scores c) ∨
        ((st.adj x).length = (st.adj y).length ∧
          (st.agents x).scores c = (st.agents y).scores c ∧ x > y)) := by
      unfold Async.winsOver at hw
      tauto
    have hd : Async.negotiate_intent st x y (some c) =
        (Async.change_intent st x).map (Async.setAgent st x) := by
      unfold Async.negotiate_intent
      rw [hx, if_pos rfl]
      dsimp only
      rw [if_neg hcond]
    refine ⟨hd, ?_⟩
    intro st2 h2
    rw [hd] at h2
    cases hci : Async.change_intent st x with
    | none => rw [hci] at h2; exact absurd h2 (by simp)
    | some a =>
      rw [hci] at h2
      have hst2 : st2 = Async.setAgent st x a := (Option.some.inj h2).symm
      rw [hst2]
      show (if y = x then a else st.agents y) = st.agents y
      rw [if_neg (Ne.symm hxy)]

/-- Adjacency for scenario C of the spec: agent A is node 0 with degree 4,
agent B is node 1 with degree 2. -/
def adjC2 : Nat → List Nat
  | 0 => [1, 2, 3, 4]
  | 1 => [0, 5]
  | 5 => [1]
  | _ => [0]

/-- Agents for scenario C: nodes 0 and 1 both intend colour 5; palette
`[4,5,6]`; no committed colours; all scores 0. -/
def agentsC2 : Nat → Async.Agent := fun i =>
  if i = 0 then
    { colour := none, intended := some 5, palette := [4, 5, 6],
      scores := fun _ => 0 }
  else if i = 1 then
    { colour := none, intended := some 5, palette := [4, 5, 6],
      scores := fun _ => 0 }
  else
    { colour := none, intended := none, palette := [4, 5, 6],
      scores := fun _ => 0 }

/-- Scenario C state. -/
def stC2 : Async.St := { adj := adjC2, agents := agentsC2 }

/-- Witness for C2 on scenario C: B (node 1, degree 2) receives A's (node
0, degree 4) intent 5; A wins on degree, so only B changes intent (to 4)
while A retains its intended colour 5. -/
theorem c2_tiebreak_witness :
    (stC2.agents 1).intended = some 5 ∧
    (stC2.agents 0).intended = some 5 ∧
    (stC2.adj 0).length = 4 ∧
    (stC2.adj 1).length = 2 ∧
    ¬ Async.winsOver stC2 1 0 5 ∧
    Async.negotiate_intent stC2 1 0 (some 5) =
      (Async.change_intent stC2 1).map (Async.setAgent stC2 1) ∧
    (Async.negotiate_intent stC2 1 0 (some 5)).map
        (fun st2 => ((st2.agents 0).intended, (st2.agents 1).intended)) =
      some (some 5, some 4) := by
  refine ⟨by decide, by decide, by decide, by decide,
    by unfold Async.winsOver; decide, ?_, by decide⟩
  exact ((c2_tiebreak_winner stC2 1 0 5 (by decide) (by decide)
    (by decide)).2 (by unfold Async.winsOver; decide)).1

/-- State for the C9 counterexample: one agent with no neighbours, palette
`[0,1]`, current intent 5, and scores favouring colour 1. -/
def stC9 : Async.St :=
  { adj := fun _ => []
    agents := fun _ =>
      { colour := none, intended := some 5, palette := [0, 1],
        scores := fun c => if c = 1 then 1 else 0 } }

/-- Claim C9 counterexample: with the palette, neighbour colours and scores
all held fixed, one invocation of `change_intent` moves the intent to
colour 1, but a second invocation moves it to colour 0 — because each
invocation removes the current intended colour from the candidates, the
routine is not idempotent. -/
theorem c9_change_intent_cex :
    (Async.change_intent stC9 0).map (fun a => a.intended) = some (some 1) ∧
    ((Async.change_intent stC9 0).bind
        (fun a => Async.change_intent (Async.setAgent stC9 0 a) 0)).map
      (fun a => a.intended) = some (some 0) := by
  refine ⟨by decide, by decide⟩

/-- Claim C9 amended: `change_intent` is idempotent when the palette minus
the perceived neighbour colours is already empty (the degraded fallback
path, whose choice does not depend on the current intent); in general it is
not idempotent, since each invocation excludes the current intended colour
from the candidates and so a second invocation picks a different colour
when an alternative exists. -/
theorem c9_change_intent_amended :
    ∀ (st : Async.St) (i : Nat),
      (st.agents i).palette.filter
        (fun c => some c ∉ Async.perceive_environment st i) = [] →
      Async.perceive_environment st i ≠ [] →
      (Async.change_intent st i).bind
        (fun a => Async.change_intent (Async.setAgent st i a) i) =
      Async.change_intent st i := by
  intro st i hpal hnb
  cases hnbr : Async.perceive_environment st i with
  | nil => exact absurd hnbr hnb
  | cons x xs =>
    have hd1 : Async.change_intent st i = some
        { st.agents i with
          intended := argmaxFirst (getScore (st.agents i).scores) x xs } := by
      unfold Async.change_intent
      dsimp only
      rw [hpal, hnbr]
      simp
    have hag : (Async.setAgent st i
        { st.agents i with
          intended := argmaxFirst (getScore (st.agents i).scores) x xs }).agents i
        = { st.agents i with
            intended := argmaxFirst (getScore (st.agents i).scores) x xs } := by
      unfold Async.setAgent
      dsimp only
      rw [if_pos rfl]
    have hpc : Async.perceive_environment
        (Async.setAgent st i
          { st.agents i with
            intended := argmaxFirst (getScore (st.agents i).scores) x xs }) i =
        Async.perceive_environment st i := by
      unfold Async.perceive_environment Async.setAgent
      dsimp only
      refine List.map_congr_left ?_
      intro n hn
      by_cases hni : n = i
      · rw [if_pos hni, hni]
      · rw [if_neg hni]
    have hd2 : Async.change_intent
        (Async.setAgent st i
          { st.agents i with
            intended := argmaxFirst (getScore (st.agents i).scores) x xs }) i =
        some { st.agents i with
               intended := argmaxFirst (getScore (st.agents i).scores) x xs } := by
      unfold Async.change_intent
      dsimp only
      rw [hag, hpc]
      dsimp only
      rw [hpal, hnbr]
      simp
    rw [hd1]
    exact hd2

/-- State for the C9 witness: agent 0 with one neighbour committed to the
single palette colour 0, so the palette minus the neighbour colours is
empty and `change_intent` takes the fallback path. -/
def stC9w : Async.St :=
  { adj := fun i => if i = 0 then [1] else []
    agents := fun i =>
      if i = 0 then
        { colour := none, intended := some 5, palette := [0],
          scores := fun _ => 0 }
      else
        { colour := some 0, intended := none, palette := [0],
          scores := fun _ => 0 } }

/-- Witness for the amended C9 at a concrete state on the fallback path:
invoking `change_intent` twice equals invoking it once. -/
theorem c9_change_intent_witness :
    ((stC9w.agents 0).palette.filter
        (fun c => some c ∉ Async.perceive_environment stC9w 0) = []) ∧
    (Async.perceive_environment stC9w 0 ≠ []) ∧
    ((Async.change_intent stC9w 0).bind
        (fun a => Async.change_intent (Async.setAgent stC9w 0 a) 0) =
      Async.change_intent stC9w 0) := by
  refine ⟨by decide, by decide, ?_⟩
  exact c9_change_intent_amended stC9w 0 (by decide) (by decide)

theorem foldl_add_map (f : Nat → Nat) :
    ∀ (l : List Nat) (a : Nat),
      l.foldl (fun acc n => acc + f n) a = a + (l.map f).sum := by
  intro l
  induction l with
  | nil => intro a; simp
  | cons x xs ih =>
    intro a
    simp only [List.foldl_cons, List.map_cons, List.sum_cons, ih]
    omega

theorem sum_map_list_range (f : Nat → Nat) :
    ∀ N, ((List.range N).map f).sum = ∑ n in Finset.range N, f n := by
  intro N
  induction N with
  | zero => simp
  | succ n ih =>
    rw [List.range_succ, List.map_append, List.sum_append,
      Finset.sum_range_succ, ih]
    simp

/-- Claim C4 amended: for a symmetric, irreflexive, duplicate-free
adjacency on nodes `0..N-1`, `count_conflicts` equals the number of
unordered edges whose two endpoints carry equal colours — each edge counted
exactly once (the scan counts each conflicting edge from both endpoints and
halves the total).  `None == None` holds under the Python equality used, so
edges between two unset endpoints ARE counted. -/
theorem c4_count_conflicts_edges (N : Nat) (adj : Nat → List Nat)
    (col : Nat → Option Colour)
    (hsym : ∀ m n, m < N → n < N → (m ∈ adj n ↔ n ∈ adj m))
    (hirr : ∀ n, n ∉ adj n)
    (hbd : ∀ n, n < N → ∀ m ∈ adj n, m < N)
    (hnd : ∀ n, (adj n).Nodup) :
    count_conflicts adj col (List.range N) =
      ((Finset.range N ×ˢ Finset.range N).filter
        (fun p => p.1 < p.2 ∧ p.2 ∈ adj p.1 ∧ col p.1 = col p.2)).card := by
  classical
  set S : Finset (Nat × Nat) :=
    (Finset.range N ×ˢ Finset.range N).filter
      (fun p => p.2 ∈ adj p.1 ∧ col p.1 = col p.2) with hS
  set T : Finset (Nat × Nat) := S.filter (fun p => p.1 < p.2) with hT
  have hmemS : ∀ p : Nat × Nat, p ∈ S ↔
      p.1 < N ∧ p.2 < N ∧ p.2 ∈ adj p.1 ∧ col p.1 = col p.2 := by
    intro p
    rw [hS]
    simp [Finset.mem_filter, Finset.mem_product, and_assoc]
  -- directed incidence count = card of S
  have hfiber : ∀ n ∈ Finset.range N,
      (S.filter (fun p => p.1 = n)).card =
        ((adj n).filter (fun m => col n = col m)).length := by
    intro n hn
    have hnN : n < N := Finset.mem_range.mp hn
    have himg : S.filter (fun p => p.1 = n) =
        ((adj n).filter (fun m => col n = col m)).toFinset.image
          (fun m => (n, m)) := by
      ext p
      constructor
      · intro hp
        obtain ⟨hpS, hp1⟩ := Finset.mem_filter.mp hp
        obtain ⟨-, -, hadj, hcol⟩ := (hmemS p).mp hpS
        rw [Finset.mem_image]
        refine ⟨p.2, ?_, ?_⟩
        · rw [List.mem_toFinset, List.mem_filter]
          rw [hp1] at hadj hcol
          exact ⟨hadj, by simpa using hcol⟩
        · rw [← hp1]
      · intro hp
        rw [Finset.mem_image] at hp
        obtain ⟨m, hm, hpm⟩ := hp
        rw [List.mem_toFinset, List.mem_filter] at hm
        obtain ⟨hmadj, hmcol⟩ := hm
        rw [Finset.mem_filter]
        constructor
        · rw [hmemS, ← hpm]
          exact ⟨hnN, hbd n hnN m hmadj, hmadj, by simpa using hmcol⟩
        · rw [← hpm]
    rw [himg]
    rw [Finset.card_image_of_injective _ (fun a b hab => by
      simpa using hab)]
    exact List.toFinset_card_of_nodup ((hnd n).filter _)
  have hcardS : S.card =
      ∑ n in Finset.range N, ((adj n).filter (fun m => col n = col m)).length := by
    rw [Finset.card_eq_sum_card_fiberwise
      (fun p hp => Finset.mem_range.mpr ((hmemS p).mp hp).1)]
    exact Finset.sum_congr rfl hfiber
  -- S has no diagonal points
  have hdiag : ∀ p ∈ S, p.1 ≠ p.2 := by
    intro p hp heq
    obtain ⟨-, -, hadj, -⟩ := (hmemS p).mp hp
    rw [← heq] at hadj
    exact hirr p.1 hadj
  -- swap gives a bijection between the two halves of S
  have hswap : (S.filter (fun p => p.2 < p.1)).card = T.card := by
    refine Finset.card_bij (fun p _ => p.swap) ?_ ?_ ?_
    · intro p hp
      obtain ⟨hpS, hlt⟩ := Finset.mem_filter.mp hp
      obtain ⟨h1, h2, hadj, hcol⟩ := (hmemS p).mp hpS
      rw [hT, Finset.mem_filter]
      refine ⟨(hmemS p.swap).mpr ⟨h2, h1, ?_, hcol.symm⟩, hlt⟩
      exact (hsym p.2 p.1 h2 h1).mp hadj
    · intro p hp q hq hpq
      exact Prod.swap_injective hpq
    · intro q hq
      obtain ⟨hqS, hlt⟩ := Finset.mem_filter.mp (hT ▸ hq)
      obtain ⟨h1, h2, hadj, hcol⟩ := (hmemS q).mp hqS
      refine ⟨q.swap, ?_, ?_⟩
      · rw [Finset.mem_filter]
        refine ⟨(hmemS q.swap).mpr ⟨h2, h1, ?_, hcol.symm⟩, hlt⟩
        exact (hsym q.2 q.1 h2 h1).mp hadj
      · exact Prod.swap_swap q
  have hsplit : S.card = 2 * T.card := by
    have hpart := Finset.filter_card_add_filter_neg_card_eq_card
      (s := S) (p := fun p => p.1 < p.2)
    have hneg : S.filter (fun p => ¬ p.1 < p.2) =
        S.filter (fun p => p.2 < p.1) := by
      refine Finset.filter_congr ?_
      intro p hp
      have := hdiag p hp
      constructor
      · intro h; omega
      · intro h; omega
    rw [hneg, hswap] at hpart
    rw [hT] at hpart ⊢
    omega
  -- assemble
  unfold count_conflicts
  rw [foldl_add_map, sum_map_list_range]
  have htarget : (Finset.range N ×ˢ Finset.range N).filter
      (fun p => p.1 < p.2 ∧ p.2 ∈ adj p.1 ∧ col p.1 = col p.2) = T := by
    rw [hT, hS, Finset.filter_filter]
    refine Finset.filter_congr ?_
    intro p hp
    constructor
    · intro h; exact ⟨⟨h.2.1, h.2.2⟩, h.1⟩
    · intro h; exact ⟨h.2, h.1.1, h.1.2⟩
  rw [htarget, ← hcardS, hsplit]
  omega

/-- Claim C4 counterexample: on a single edge between two agents whose
colours are BOTH UNSET, `count_conflicts` returns 1, not 0 — Python's
`None == None` makes an unset-unset edge count as a conflict, contradicting
the claim that such an edge is not counted ("both colours set"). -/
theorem c4_unset_conflict_cex :
    count_conflicts adjPath (fun _ => none) [0, 1] = 1 ∧
    (fun _ => (none : Option Colour)) 0 = none ∧
    (fun _ => (none : Option Colour)) 1 = none := by
  refine ⟨by decide, rfl, rfl⟩

/-- Witness for the amended C4 on the concrete two-node graph with one edge
and both endpoints coloured 7: the scan equals the unordered-pair count,
and both are 1. -/
theorem c4_count_conflicts_witness :
    count_conflicts adjPath (fun _ => some 7) (List.range 2) =
      ((Finset.range 2 ×ˢ Finset.range 2).filter
        (fun p => p.1 < p.2 ∧ p.2 ∈ adjPath p.1 ∧
          (fun _ => some 7) p.1 = (fun _ => (some 7 : Option Colour)) p.2)).card ∧
    count_conflicts adjPath (fun _ => some 7) (List.range 2) = 1 := by
  constructor
  · refine c4_count_conflicts_edges 2 adjPath (fun _ => some 7) ?_ ?_ ?_ ?_
    · intro m n hm hn
      interval_cases m <;> interval_cases n <;> decide
    · intro n
      rcases n with _ | n
      · decide
      rcases n with _ | n
      · decide
      · exact List.not_mem_nil _
    · intro n hn m hm
      interval_cases n <;> simp [adjPath] at hm <;> omega
    · intro n
      rcases n with _ | n
      · decide
      rcases n with _ | n
      · decide
      · exact List.nodup_nil
  · decide

end GraphColouring
